import Mathlib

/-!
A verification development for the bounded-edit-distance trie implemented in
`src/trie.c` (search kernel `recursive_search`, perfect-match shortcut `dash`,
construction `insert_string`, error channel, mile cache).

The C code is shallowly embedded: the trie is an inductive tree, the mutable
per-node DP caches, the global scratch array `COMMON`, the mile cache, the hit
stack and the error channel are threaded through an explicit state record.
Machine integers are modelled as `Nat`; stores into `unsigned char` objects
reduce modulo 256.  Node identity (a `node_t *` in C) is modelled by the list
of child indices leading from the root to the node.

`trie.h` is not part of the sources, so the constants and the two translation
tables it defines are modelled from the spec (each such definition is marked).
-/

set_option maxRecDepth 100000

namespace Starcode

/-- Modelled from the spec: sentinel `EOS = 6` that terminates translated
queries (defined in the missing `trie.h`). -/
def EOS : Nat := 6

/-- Modelled from the spec: `MAXBRCDLEN` (`L_max`), the maximum admissible
string length, 127 (defined in the missing `trie.h`). -/
def MAXBRCDLEN : Nat := 127

/-- Modelled from the spec: `M = L_max + 2`, the size of the translated-query
buffer and of the mile array (defined in the missing `trie.h`). -/
def M : Nat := MAXBRCDLEN + 2

/-- Modelled from the spec: the construction translation table `translate`
(defined in the missing `trie.h`): A/a ↦ 0, C/c ↦ 1, G/g ↦ 2, T/t ↦ 3, every
other byte (including N) is treated as the ambiguity code 4. -/
def translate (b : Nat) : Nat :=
  if b = 65 ∨ b = 97 then 0
  else if b = 67 ∨ b = 99 then 1
  else if b = 71 ∨ b = 103 then 2
  else if b = 84 ∨ b = 116 then 3
  else 4

/-- Modelled from the spec: the query translation table `altranslate`
(defined in the missing `trie.h`): A/a ↦ 0, C/c ↦ 1, G/g ↦ 2, T/t ↦ 3, every
other byte maps to the never-matching code 5. -/
def altranslate (b : Nat) : Nat :=
  if b = 65 ∨ b = 97 then 0
  else if b = 67 ∨ b = 99 then 1
  else if b = 71 ∨ b = 103 then 2
  else if b = 84 ∨ b = 116 then 3
  else 5

/-- Standard Levenshtein edit distance (unit costs for insertion, deletion
and substitution), the distance notion used by the spec. -/
def editDist : List Nat → List Nat → Nat
  | [], ys => ys.length
  | x :: xs, [] => (x :: xs).length
  | x :: xs, y :: ys =>
      min (editDist xs ys + (if x = y then 0 else 1))
          (min (editDist xs (y :: ys)) (editDist (x :: xs) ys) + 1)
  termination_by xs ys => xs.length + ys.length
  decreasing_by
    all_goals simp only [List.length_cons]; omega

/-- Truncation to `unsigned char`, applied wherever the C code stores into a
`char`-sized object. -/
def uc (n : Nat) : Nat := n % 256

/-- A trie vertex (`node_t`): six child slots, a payload flag (`data`, true
when the node carries a non-null payload — for the root this is the `Info`
block), and the packed ancestor path.  `missing` stands for a `NULL` child
pointer.  The per-node DP cache lives in the search state, keyed by the
node's root-to-node child-index list. -/
inductive Node where
  | missing
  | mk (c0 c1 c2 c3 c4 c5 : Node) (data : Bool) (path : Nat)
  deriving DecidableEq, Repr

namespace Node

/-- `node->child[i]` (`NULL` is `missing`; indices outside 0..5 do not occur
in the C code and give `missing`). -/
def child : Node → Nat → Node
  | .missing, _ => .missing
  | .mk c0 _ _ _ _ _ _ _, 0 => c0
  | .mk _ c1 _ _ _ _ _ _, 1 => c1
  | .mk _ _ c2 _ _ _ _ _, 2 => c2
  | .mk _ _ _ c3 _ _ _ _, 3 => c3
  | .mk _ _ _ _ c4 _ _ _, 4 => c4
  | .mk _ _ _ _ _ c5 _ _, 5 => c5
  | .mk _ _ _ _ _ _ _ _, _ + 6 => .missing

/-- Replace child slot `i`. -/
def setChild : Node → Nat → Node → Node
  | .missing, _, _ => .missing
  | .mk c0 c1 c2 c3 c4 c5 d p, 0, c => .mk c c1 c2 c3 c4 c5 d p
  | .mk c0 c1 c2 c3 c4 c5 d p, 1, c => .mk c0 c c2 c3 c4 c5 d p
  | .mk c0 c1 c2 c3 c4 c5 d p, 2, c => .mk c0 c1 c c3 c4 c5 d p
  | .mk c0 c1 c2 c3 c4 c5 d p, 3, c => .mk c0 c1 c2 c c4 c5 d p
  | .mk c0 c1 c2 c3 c4 c5 d p, 4, c => .mk c0 c1 c2 c3 c c5 d p
  | .mk c0 c1 c2 c3 c4 c5 d p, 5, c => .mk c0 c1 c2 c3 c4 c d p
  | .mk c0 c1 c2 c3 c4 c5 d p, _ + 6, _ => .mk c0 c1 c2 c3 c4 c5 d p

/-- The payload flag (`node->data != NULL`). -/
def dataB : Node → Bool
  | .missing => false
  | .mk _ _ _ _ _ _ d _ => d

/-- The packed ancestor path (`node->path`). -/
def pathW : Node → Nat
  | .missing => 0
  | .mk _ _ _ _ _ _ _ p => p

/-- Number of `mk` vertices, used as a termination measure. -/
def size : Node → Nat
  | .missing => 0
  | .mk c0 c1 c2 c3 c4 c5 _ _ =>
      c0.size + c1.size + c2.size + c3.size + c4.size + c5.size + 1

/-- Walk a child-index list from a node. -/
def follow (n : Node) (p : List Nat) : Node := p.foldl child n

theorem child_size_lt {n : Node} {i : Nat} {a b c d e f : Node} {g : Bool}
    {p : Nat} (h : n.child i = Node.mk a b c d e f g p) :
    (Node.mk a b c d e f g p).size < n.size := by
  cases n with
  | missing => cases i <;> simp [child] at h
  | mk c0 c1 c2 c3 c4 c5 dd pp =>
    match i with
    | 0 => simp [child] at h; subst h; simp [size]; omega
    | 1 => simp [child] at h; subst h; simp [size]; omega
    | 2 => simp [child] at h; subst h; simp [size]; omega
    | 3 => simp [child] at h; subst h; simp [size]; omega
    | 4 => simp [child] at h; subst h; simp [size]; omega
    | 5 => simp [child] at h; subst h; simp [size]; omega
    | (k + 6) => simp [child] at h

end Node

/-- A freshly allocated node (`new_trienode` followed by the path update in
`insert`): no children, no payload, `path = (parent.path << 4) + position`
truncated to 32 bits. -/
def freshNode (ppath c : Nat) : Node :=
  .mk .missing .missing .missing .missing .missing .missing false
    ((ppath * 16 + c) % 4294967296)

/-- The net effect of `insert_string`'s two loops on the tree: follow
existing children along the translated symbol list, and append fresh nodes
(via `insert`) below the first missing one.  Existing nodes are never
replaced. -/
def insertSyms : Node → List Nat → Node
  | n, [] => n
  | n, c :: rest =>
      let ch := match n.child c with
        | .missing => freshNode n.pathW c
        | m => m
      n.setChild c (insertSyms ch rest)

/-- Set the payload flag of the node at path `p` (the caller attaching a
payload to the leaf returned by `insert_string`). -/
def setData : Node → List Nat → Node
  | .missing, _ => .missing
  | .mk c0 c1 c2 c3 c4 c5 _ pth, [] => .mk c0 c1 c2 c3 c4 c5 true pth
  | n, c :: rest => n.setChild c (setData (n.child c) rest)

/-- The leaf path produced by inserting byte string `s`: its translated
symbol list. -/
def strSyms (s : List Nat) : List Nat := s.map translate

/-- A fresh root as produced by `new_trie`: no children, `data` is the
`Info` block (non-null), `path = 0`. -/
def rootNode : Node :=
  .mk .missing .missing .missing .missing .missing .missing true 0

/-- One `insert_string` call (length guard from the C code) followed by the
caller attaching a payload to the returned leaf. -/
def insertStr (t : Node) (s : List Nat) : Node :=
  if s.length > MAXBRCDLEN then t
  else setData (insertSyms t (strSyms s)) (strSyms s)

/-- A trie built from a fresh root by `insert_string` calls, payloads
attached to all the returned leaves. -/
def buildTrie (strs : List (List Nat)) : Node :=
  strs.foldl insertStr rootNode

/-- Return value of `insert_string` itself (the leaf path, or `none` on the
length failure, which is the only failure mode once allocation succeeds).
For the empty string no loop iteration runs and the root itself is
returned. -/
def insertStringRet (s : List Nat) : Option (List Nat) :=
  if s.length > MAXBRCDLEN then none else some (strSyms s)

/-- Ghost record of one per-child cache fill inside `recursive_search`:
the parent's path, the child slot `i`, the depth, the final value of the
local variable `mindist`, and the minimum over all the cells computed for
that child (the right-arm cells `COMMON[1..maxa]` as they stand at the
fill, the left-arm cells and the center cell).  The trace does not feed
back into the search; it only makes the claims about loop internals
stateable. -/
structure FillRec where
  parent : List Nat
  sym : Nat
  depth : Nat
  mindist : Nat
  bandMin : Nat
  deriving DecidableEq, Repr

/-- The mutable state threaded through a search: the per-node DP caches
(`node->cache`, keyed by node path, offsets relative to
`cache + maxtau + 1`), the global scratch `COMMON`, the mile cache
`info->miles` (node paths, in push order) with its lazy-init flag, the
module error channel `ERROR`, the hit stack (`HITS`), and the ghost fill
trace. -/
structure ST where
  caches : List Nat → Int → Nat
  common : Nat → Nat
  miles : Nat → List (List Nat)
  milesInit : Bool
  error : Nat
  hits : List (List Nat)
  trace : List FillRec

/-- State of a freshly constructed trie and module: caches at their
`new_trienode` values `|offset|`, `COMMON = {0,1,...,8}` (extended by its
index beyond the C array, a value that is never read in the claims'
scenarios), miles unallocated, no error, empty hit stack. -/
def ST.fresh : ST where
  caches := fun _ j => j.natAbs
  common := fun a => a
  miles := fun _ => []
  milesInit := false
  error := 0
  hits := []
  trace := []

/-- Pointwise update of a `Nat`-indexed array. -/
def updN (f : Nat → Nat) (k v : Nat) : Nat → Nat :=
  fun k' => if k' = k then v else f k'

/-- Pointwise update of an `Int`-indexed cache row. -/
def updZ (f : Int → Nat) (k : Int) (v : Nat) : Int → Nat :=
  fun k' => if k' = k then v else f k'

/-- Pointwise update of the cache map. -/
def updC (f : List Nat → Int → Nat) (k : List Nat) (row : Int → Nat) :
    List Nat → Int → Nat :=
  fun p => if p = k then row else f p

/-- `push(node, &HITS)` with the allocation succeeding. -/
def pushHits (st : ST) (p : List Nat) : ST :=
  { st with hits := st.hits ++ [p] }

/-- `push(child, miles + depth)` with the allocation succeeding. -/
def pushMiles (st : ST) (d : Nat) (p : List Nat) : ST :=
  { st with miles := fun d' => if d' = d then st.miles d ++ [p] else st.miles d' }

/-- The translated query buffer built by `search`: index 0 holds the
length, index `length+1` holds `EOS`, indices `i+1` for
`max(0, start-maxtau) ≤ i < length` hold `altranslate[query[i]]`, and every
other entry keeps its indeterminate stack contents, modelled by the
parameter `u`. -/
def mkQuery (qb : List Nat) (start maxtau u : Nat) : Nat → Nat :=
  fun idx =>
    if idx = 0 then qb.length
    else if 1 ≤ idx ∧ idx ≤ qb.length ∧ start - maxtau + 1 ≤ idx then
      altranslate (qb.getD (idx - 1) 0)
    else if idx = qb.length + 1 then EOS
    else u

/-- Search parameters fixed for a whole `recursive_search` cascade. -/
structure Prm where
  q : Nat → Nat
  tau : Nat
  maxtau : Nat
  trail : Nat
  bottom : Nat

/-- The right-side loop at the top of `recursive_search`: for
`a = maxa .. 1`, `COMMON[a] = min(pcache[a] + ((path >> 4*(a-1) & 15) !=
query[depth]), min(pcache[a-1], COMMON[a+1]) + 1)`.  Returns the updated
`COMMON`. -/
def rightArm (pc : Int → Nat) (path qd : Nat) : Nat → (Nat → Nat) → (Nat → Nat)
  | 0, cm => cm
  | a + 1, cm =>
      let mmatch := uc (pc (Int.ofNat (a + 1)) +
        (if (path >>> (4 * a)) % 16 ≠ qd then 1 else 0))
      let shift := uc (min (pc (Int.ofNat a)) (cm (a + 2)) + 1)
      rightArm pc path qd a (updN cm (a + 1) (min mmatch shift))

/-- The left-side loop of the per-child fill: for `a = maxa .. 1`,
`ccache[-a] = min(pcache[-a] + (i != query[depth-a]), min(pcache[1-a],
ccache[-a-1]) + 1)`, accumulating `mindist`.  Returns the updated row and
`mindist`. -/
def leftArm (pc : Int → Nat) (q : Nat → Nat) (depth i : Nat) :
    Nat → (Int → Nat) → Nat → ((Int → Nat) × Nat)
  | 0, row, mind => (row, mind)
  | a + 1, row, mind =>
      let mmatch := uc (pc (-(Int.ofNat (a + 1))) +
        (if i ≠ q (depth - (a + 1)) then 1 else 0))
      let shift := uc (min (pc (-(Int.ofNat a))) (row (-(Int.ofNat (a + 2)))) + 1)
      let cell := min mmatch shift
      leftArm pc q depth i a (updZ row (-(Int.ofNat (a + 1))) cell) (min cell mind)

/-- `memcpy(ccache, COMMON, maxtau*sizeof(char))`: positions `0 .. maxtau-1`
of the child row take the current `COMMON` values. -/
def memcpyRow (row : Int → Nat) (cm : Nat → Nat) (maxtau : Nat) : Int → Nat :=
  fun j => if 0 ≤ j ∧ j < Int.ofNat maxtau then cm j.toNat else row j

/-- Ghost: the minimum over the cells computed for one child, namely the
right-arm cells `COMMON[1..maxa]` as computed once per parent at the top of
the enclosing `recursive_search` call, the left-arm cells `row[-maxa..-1]`
and the center cell `row[0]`. -/
def bandMinOf (cm : Nat → Nat) (row : Int → Nat) (maxa : Nat) : Nat :=
  List.foldr min (row 0)
    (((List.range maxa).map (fun k => cm (k + 1))) ++
     ((List.range maxa).map (fun k => row (-(Int.ofNat (k + 1))))))

/-- `dash`: pure exact-match descent along the translated tail, pushing the
reached node into `HITS` iff the tail is consumed down to `EOS` at a node
carrying a payload. -/
def dash (node : Node) (npath : List Nat) (q : Nat → Nat) (idx : Nat)
    (st : ST) : ST :=
  let c := q idx
  if c = EOS then (if node.dataB then pushHits st npath else st)
  else if 4 < c then st
  else
    match h : node.child c with
    | .missing => st
    | .mk a b cc d e f g p =>
        dash (Node.mk a b cc d e f g p) (npath ++ [c]) q (idx + 1) st
  termination_by node.size
  decreasing_by exact Node.child_size_lt h

/-- The fill of one child's cache row inside the per-child loop of
`recursive_search`: `memcpy` of the current `COMMON` into positions
`0..maxtau-1`, the left-arm loop, and the center cell.  Returns the filled
row, the center cell `ccache[0]`, and the final value of the local
variable `mindist` (whose accumulation starts from `cmindist`). -/
def fillChild (P : Prm) (pc : Int → Nat) (depth maxa cmind i : Nat)
    (row₀ : Int → Nat) (cmNow : Nat → Nat) : (Int → Nat) × (Nat × Nat) :=
  let row₁ := memcpyRow row₀ cmNow P.maxtau
  let filled := leftArm pc P.q depth i maxa row₁ cmind
  let mmatch := uc (pc 0 + (if i ≠ P.q depth then 1 else 0))
  let shift := uc (min (filled.1 (-1)) (filled.1 1) + 1)
  let cell0 := min mmatch shift
  (updZ filled.1 0 cell0, cell0, min cell0 filled.2)

mutual

/-- `recursive_search`: computes the shared right arm into `COMMON` and the
sibling-invariant `cmindist`, then runs the per-child loop over slots
0..5. -/
def rsearch (P : Prm) (node : Node) (npath : List Nat) (depth : Nat)
    (st : ST) : ST :=
  let pc := st.caches npath
  let maxa := min (depth - 1) P.tau
  let cm := rightArm pc node.pathW (P.q depth) maxa st.common
  let cmind := if maxa = 0 then M else min (cm 1) M
  childLoop P pc cm node npath depth maxa cmind [0, 1, 2, 3, 4, 5]
    { st with common := cm }
  termination_by 7 * node.size + 7
  decreasing_by simp only [List.length_cons, List.length_nil]; omega

/-- The per-child loop of `recursive_search`: skip `NULL` children; fill the
child's cache (memcpy of `COMMON`, left arm, center) through `fillChild`;
record the ghost trace entry; then, exactly as the C code: return when
`mindist > tau`, push into the mile cache when `depth ≤ trail`, shortcut
through `dash` when `mindist == tau` and `depth > trail`, push into `HITS`
at the `depth == bottom` gate, and recurse. -/
def childLoop (P : Prm) (pc : Int → Nat) (cmSnap : Nat → Nat) (node : Node)
    (npath : List Nat) (depth : Nat) (maxa : Nat) (cmind : Nat) :
    List Nat → ST → ST
  | [], st => st
  | i :: rest, st =>
      match h : node.child i with
      | .missing => childLoop P pc cmSnap node npath depth maxa cmind rest st
      | .mk a b c d e f g p =>
          let cpath := npath ++ [i]
          let fc := fillChild P pc depth maxa cmind i (st.caches cpath)
            st.common
          let st₁ := { st with
            caches := updC st.caches cpath fc.1,
            trace := st.trace ++
              [⟨npath, i, depth, fc.2.2, bandMinOf cmSnap fc.1 maxa⟩] }
          if P.tau < fc.2.2 then st₁
          else
            let st₂ := if depth ≤ P.trail then pushMiles st₁ depth cpath else st₁
            if fc.2.2 = P.tau ∧ P.trail < depth then
              childLoop P pc cmSnap node npath depth maxa cmind rest
                (dash (Node.mk a b c d e f g p) cpath P.q (depth + 1) st₂)
            else
              let st₃ := if depth = P.bottom ∧ fc.2.1 ≤ P.tau then
                  pushHits st₂ cpath else st₂
              childLoop P pc cmSnap node npath depth maxa cmind rest
                (rsearch P (Node.mk a b c d e f g p) cpath (depth + 1) st₃)
  termination_by is => 7 * node.size + is.length
  decreasing_by
    all_goals first
      | (simp only [List.length_cons]; omega)
      | (have hlt := Node.child_size_lt h; simp only [List.length_cons]; omega)

end

/-- The loop in `search` running `recursive_search` from every node cached
in `miles[start]`. -/
def startLoop (P : Prm) (trie : Node) : List (List Nat) → Nat → ST → ST
  | [], _, st => st
  | p :: ps, d, st => startLoop P trie ps d (rsearch P (trie.follow p) p d st)

/-- `init_miles` with all allocations succeeding: all mile slots become
empty arrays, and the root is pushed into `miles[0]`. -/
def initMilesM (st : ST) : ST :=
  { st with miles := fun d => if d = 0 then [[]] else [], milesInit := true }

/-- The reset loop in `search`: slots `start+1 .. trail` get `pos = 0`. -/
def resetMiles (st : ST) (start trail : Nat) : ST :=
  { st with miles := fun d =>
      if start + 1 ≤ d ∧ d ≤ trail then [] else st.miles d }

/-- `search(trie, query, tau, hits, start, trail)`.  The trie root,
`maxtau` and `bottom` (read from the root's `Info` block) are explicit
parameters; `qb` is the raw query byte string, `u` the indeterminate value
filling unwritten `translated` entries, and `st` the incoming module/trie
state (its `hits` field is the `hits` argument). -/
def searchM (trie : Node) (maxtau bottom : Nat) (qb : List Nat)
    (tau start trail u : Nat) (st : ST) : ST :=
  if maxtau < tau then { st with error := 44 }
  else if MAXBRCDLEN < qb.length then { st with error := 55 }
  else
    let st₁ := if st.milesInit then st else initMilesM st
    let st₂ := resetMiles st₁ start trail
    let P : Prm := ⟨mkQuery qb start maxtau u, tau, maxtau, trail, bottom⟩
    startLoop P trie (st₂.miles start) (start + 1) st₂

/-- `check_trie_error_and_reset`: returns the error channel and clears
it. -/
def checkTrieErrorAndReset (st : ST) : Nat × ST :=
  if st.error ≠ 0 then (st.error, { st with error := 0 }) else (0, st)

/-- Modelled from trie.c `init_miles`: it allocates one narray per mile slot
through `new_narray`; if any allocation returns `NULL` the code calls
`exit(EXIT_FAILURE)` (trie.c line 449, under the comment "TODO: You can do
better than this!").  `alloc i` says whether the `i`-th allocation
succeeds; `none` models the process exiting, `some` the initialized mile
array with the root pushed into slot 0. -/
def initMilesAlloc (alloc : Nat → Bool) : Option (Nat → List (List Nat)) :=
  if (List.range M).all alloc then
    some (fun d => if d = 0 then [[]] else [])
  else none

/-- The cells the code's `mindist` actually aggregates: the incoming
`cmindist` (which in `recursive_search` is `min(COMMON[1], M)` when
`maxa ≥ 1` and `M` otherwise), the center cell `row[0]`, and the left-arm
cells `row[-maxa..-1]` — but none of the right-arm cells
`COMMON[2..maxa]`. -/
def narrowBandMin (cmind : Nat) (row : Int → Nat) (maxa : Nat) : Nat :=
  List.foldr min cmind
    (row 0 :: (List.range maxa).map (fun k => row (-(Int.ofNat (k + 1)))))

/-! ## Invariance lemmas: the search never writes the error channel -/

theorem dash_error (node : Node) (npath : List Nat) (q : Nat → Nat) (idx : Nat)
    (st : ST) : (dash node npath q idx st).error = st.error := by
  induction node, npath, q, idx, st using dash.induct with
  | case1 n np q i s c hc hd =>
      have hc' : q i = EOS := hc
      rw [dash]; simp [hc', hd, pushHits]
  | case2 n np q i s c hc hd =>
      have hc' : q i = EOS := hc
      rw [dash]; simp [hc', hd]
  | case3 n np q i s c hc hb =>
      have hc' : ¬(q i = EOS) := hc
      have hb' : 4 < q i := hb
      rw [dash]; simp [hc', hb']
  | case4 n np q i s c hc hb hm =>
      have hc' : ¬(q i = EOS) := hc
      have hb' : ¬(4 < q i) := hb
      have hm' : n.child (q i) = Node.missing := hm
      rw [dash]; simp only [hc', hb', if_neg, if_false]
      split <;> simp_all
  | case5 n np q i s c hc hb a b cc d e f g p hch ih =>
      have hc' : ¬(q i = EOS) := hc
      have hb' : ¬(4 < q i) := hb
      have hch' : n.child (q i) = Node.mk a b cc d e f g p := hch
      rw [dash]; simp only [hc', hb', if_neg, if_false]
      split <;> simp_all

theorem childLoop_error (P : Prm) (pc : Int → Nat) (cmSnap : Nat → Nat)
    (node : Node) (npath : List Nat) (depth maxa cmind : Nat)
    (is : List Nat) (st : ST) :
    (childLoop P pc cmSnap node npath depth maxa cmind is st).error = st.error := by
  refine childLoop.induct P
    (fun node npath depth st =>
      (rsearch P node npath depth st).error = st.error)
    (fun pc cmSnap node npath depth maxa cmind is st =>
      (childLoop P pc cmSnap node npath depth maxa cmind is st).error =
        st.error)
    ?_ ?_ ?_ ?_ ?_ ?_ pc cmSnap node npath depth maxa cmind is st
  · intro n np d s pc0 maxa0 cm0 cmind0 ih1
    rw [rsearch]; exact ih1
  · intro pcv csv nodev npv depthv maxav cmindv stv
    rw [childLoop]
  · intro pcv csv nodev npv depthv maxav cmindv iv restv stv hmiss ih
    rw [childLoop]
    split
    · exact ih
    · next heq => rw [hmiss] at heq; simp at heq
  · intro pcv csv nodev npv depthv maxav cmindv iv restv stv
      av bv ccv dv ev fv gv pv hch cp fc hprune
    rw [childLoop]
    split
    · next heq => rw [hch] at heq; simp at heq
    · next heq =>
        rw [hch] at heq; cases heq
        simp only [if_pos hprune]
  · intro pcv csv nodev npv depthv maxav cmindv iv restv stv
      av bv ccv dv ev fv gv pv hch cp fc s1 hprune s2 hdash ih1
    rw [childLoop]
    split
    · next heq => rw [hch] at heq; simp at heq
    · next heq =>
        rw [hch] at heq; cases heq
        simp only [if_neg hprune, if_pos hdash]
        have es2 : s2.error = stv.error := by
          show (if depthv ≤ P.trail then pushMiles s1 depthv cp else s1).error =
            stv.error
          split <;> rfl
        exact ih1.trans ((dash_error _ cp P.q (depthv + 1) s2).trans es2)
  · intro pcv csv nodev npv depthv maxav cmindv iv restv stv
      av bv ccv dv ev fv gv pv hch cp fc st1v hpr st2v hnd st3v ihA ihB ihR
    rw [childLoop]
    split
    · next heq => rw [hch] at heq; simp at heq
    · next heq =>
        rw [hch] at heq; cases heq
        simp only [if_neg hpr, if_neg hnd]
        have es2 : st2v.error = stv.error := by
          show (if depthv ≤ P.trail then pushMiles st1v depthv cp
              else st1v).error = stv.error
          split <;> rfl
        have es3 : st3v.error = stv.error := by
          show (if depthv = P.bottom ∧ fc.2.1 ≤ P.tau then pushHits st2v cp
              else st2v).error = stv.error
          split <;> exact es2
        exact ihR.trans (ihA.trans es3)

theorem rsearch_error (P : Prm) (node : Node) (npath : List Nat) (depth : Nat)
    (st : ST) : (rsearch P node npath depth st).error = st.error := by
  rw [rsearch]; exact childLoop_error ..

theorem startLoop_error (P : Prm) (trie : Node) (ps : List (List Nat))
    (d : Nat) (st : ST) : (startLoop P trie ps d st).error = st.error := by
  induction ps generalizing st with
  | nil => rfl
  | cons p ps ih => rw [startLoop]; rw [ih, rsearch_error]

/-! ## Structure of tries built by `insert_string` -/

theorem Node.follow_missing (p : List Nat) :
    Node.follow Node.missing p = Node.missing := by
  induction p with
  | nil => rfl
  | cons c rest ih => simpa [Node.follow, Node.child] using ih

theorem Node.follow_cons (n : Node) (c : Nat) (p : List Nat) :
    Node.follow n (c :: p) = Node.follow (n.child c) p := rfl

theorem Node.follow_append_one (n : Node) (p : List Nat) (c : Nat) :
    Node.follow n (p ++ [c]) = (Node.follow n p).child c := by
  simp [Node.follow, List.foldl_append]

theorem Node.child_missing (c : Nat) : Node.child Node.missing c = Node.missing := by
  cases c <;> rfl

theorem Node.setChild_child_self {n : Node} (hn : n ≠ Node.missing) {c : Nat}
    (hc : c ≤ 5) (x : Node) : (n.setChild c x).child c = x := by
  cases n with
  | missing => exact absurd rfl hn
  | mk c0 c1 c2 c3 c4 c5 d pth =>
      match c, hc with
      | 0, _ => rfl
      | 1, _ => rfl
      | 2, _ => rfl
      | 3, _ => rfl
      | 4, _ => rfl
      | 5, _ => rfl

theorem Node.setChild_child_ne (n : Node) {c c' : Nat} (h : c' ≠ c) (x : Node) :
    (n.setChild c x).child c' = n.child c' := by
  cases n with
  | missing => cases c <;> rfl
  | mk c0 c1 c2 c3 c4 c5 d pth =>
      match c, c', h with
      | 0, 0, h => exact absurd rfl h
      | 0, 1, _ => rfl
      | 0, 2, _ => rfl
      | 0, 3, _ => rfl
      | 0, 4, _ => rfl
      | 0, 5, _ => rfl
      | 0, k + 6, _ => rfl
      | 1, 0, _ => rfl
      | 1, 1, h => exact absurd rfl h
      | 1, 2, _ => rfl
      | 1, 3, _ => rfl
      | 1, 4, _ => rfl
      | 1, 5, _ => rfl
      | 1, k + 6, _ => rfl
      | 2, 0, _ => rfl
      | 2, 1, _ => rfl
      | 2, 2, h => exact absurd rfl h
      | 2, 3, _ => rfl
      | 2, 4, _ => rfl
      | 2, 5, _ => rfl
      | 2, k + 6, _ => rfl
      | 3, 0, _ => rfl
      | 3, 1, _ => rfl
      | 3, 2, _ => rfl
      | 3, 3, h => exact absurd rfl h
      | 3, 4, _ => rfl
      | 3, 5, _ => rfl
      | 3, k + 6, _ => rfl
      | 4, 0, _ => rfl
      | 4, 1, _ => rfl
      | 4, 2, _ => rfl
      | 4, 3, _ => rfl
      | 4, 4, h => exact absurd rfl h
      | 4, 5, _ => rfl
      | 4, k + 6, _ => rfl
      | 5, 0, _ => rfl
      | 5, 1, _ => rfl
      | 5, 2, _ => rfl
      | 5, 3, _ => rfl
      | 5, 4, _ => rfl
      | 5, 5, h => exact absurd rfl h
      | 5, k + 6, _ => rfl
      | j + 6, 0, _ => rfl
      | j + 6, 1, _ => rfl
      | j + 6, 2, _ => rfl
      | j + 6, 3, _ => rfl
      | j + 6, 4, _ => rfl
      | j + 6, 5, _ => rfl
      | j + 6, k + 6, h => cases n' : (k + 6 : Nat) <;> rfl

theorem Node.setChild_ne_missing {n : Node} (hn : n ≠ Node.missing)
    (c : Nat) (x : Node) : n.setChild c x ≠ Node.missing := by
  cases n with
  | missing => exact absurd rfl hn
  | mk c0 c1 c2 c3 c4 c5 d pth =>
      match c with
      | 0 => simp [Node.setChild]
      | 1 => simp [Node.setChild]
      | 2 => simp [Node.setChild]
      | 3 => simp [Node.setChild]
      | 4 => simp [Node.setChild]
      | 5 => simp [Node.setChild]
      | k + 6 => simp [Node.setChild]

theorem Node.setChild_dataB (n : Node) (c : Nat) (x : Node) :
    (n.setChild c x).dataB = n.dataB := by
  cases n with
  | missing => cases c <;> rfl
  | mk c0 c1 c2 c3 c4 c5 d pth =>
      match c with
      | 0 => rfl
      | 1 => rfl
      | 2 => rfl
      | 3 => rfl
      | 4 => rfl
      | 5 => rfl
      | k + 6 => rfl

theorem freshNode_ne_missing (pp c : Nat) : freshNode pp c ≠ Node.missing := by
  simp [freshNode]

theorem insertSyms_ne_missing {n : Node} (hn : n ≠ Node.missing)
    (σ : List Nat) : insertSyms n σ ≠ Node.missing := by
  cases σ with
  | nil => exact hn
  | cons c rest => exact Node.setChild_ne_missing hn c _

theorem insertSyms_dataB (n : Node) (σ : List Nat) :
    (insertSyms n σ).dataB = n.dataB := by
  cases σ with
  | nil => rfl
  | cons c rest => exact Node.setChild_dataB n c _

/-! ## Claim C7: behaviour of `insert_string` on the empty string -/

/-- C7: the code does NOT reject the empty string.  `strlen("") = 0` passes
the length guard, neither loop of `insert_string` runs, and the function
returns its `node` variable still equal to `trie` — the ROOT, not `NULL` —
exactly as the FIXME comment in `insert_string` warns ("inserting the empty
string returns the root, which means that there is a risk of overwriting
the trie info").  The trie is left unchanged, and the root carries the
`Info` block as its `data`. -/
theorem c7_insert_empty_returns_root :
    insertStringRet [] = some [] ∧ insertSyms rootNode [] = rootNode ∧
      rootNode.dataB = true := by
  refine ⟨by simp [insertStringRet, strSyms, MAXBRCDLEN], rfl, rfl⟩

/-! ## Claim C8: precondition errors 44 and 55, stickiness, reset -/

/-- C8: a call with `tau > maxtau` sets the sticky error to 44 and returns
with the state otherwise unchanged (hits untouched, no mile slot reset); a
call passing the tau check with a query longer than `MAXBRCDLEN` sets 55
likewise; a call satisfying both preconditions leaves the error channel
unchanged, so an error persists across subsequent successful calls; and
`check_trie_error_and_reset` returns the channel and resets it to 0. -/
theorem c8_sticky_precondition_errors (trie : Node) (maxtau bottom : Nat)
    (qb : List Nat) (tau start trail u : Nat) (st : ST) :
    (maxtau < tau →
      searchM trie maxtau bottom qb tau start trail u st =
        { st with error := 44 }) ∧
    (tau ≤ maxtau → MAXBRCDLEN < qb.length →
      searchM trie maxtau bottom qb tau start trail u st =
        { st with error := 55 }) ∧
    (tau ≤ maxtau → qb.length ≤ MAXBRCDLEN →
      (searchM trie maxtau bottom qb tau start trail u st).error = st.error) ∧
    (checkTrieErrorAndReset st).1 = st.error ∧
    (checkTrieErrorAndReset st).2.error = 0 := by
  refine ⟨fun h1 => ?_, fun h1 h2 => ?_, fun h1 h2 => ?_, ?_, ?_⟩
  · rw [searchM, if_pos h1]
  · rw [searchM, if_neg (by omega), if_pos h2]
  · rw [searchM, if_neg (by omega), if_neg (by omega)]
    rw [startLoop_error]
    by_cases hmi : st.milesInit <;> simp [hmi, resetMiles, initMilesM]
  · by_cases h : st.error = 0 <;> simp [checkTrieErrorAndReset, h]
  · by_cases h : st.error = 0 <;> simp [checkTrieErrorAndReset, h]

/-- Witness for C8 at concrete inputs: `tau = 2 > maxtau = 1` gives error
44 leaving the fresh state otherwise intact; a 128-byte query gives error
55; a successful call on a state carrying error 44 leaves the 44 in place;
and the reset call returns 44 and clears the channel. -/
theorem c8_sticky_precondition_errors_witness :
    searchM rootNode 1 1 [65] 2 0 0 7 ST.fresh = { ST.fresh with error := 44 } ∧
    searchM rootNode 1 1 (List.replicate 128 65) 1 0 0 7 ST.fresh =
      { ST.fresh with error := 55 } ∧
    (searchM rootNode 1 1 [65] 1 0 0 7
      { ST.fresh with error := 44 }).error = 44 ∧
    (checkTrieErrorAndReset { ST.fresh with error := 44 }).1 = 44 ∧
    (checkTrieErrorAndReset { ST.fresh with error := 44 }).2.error = 0 :=
  ⟨(c8_sticky_precondition_errors rootNode 1 1 [65] 2 0 0 7 ST.fresh).1
      (by decide),
   (c8_sticky_precondition_errors rootNode 1 1 (List.replicate 128 65) 1 0 0 7
      ST.fresh).2.1 (by decide) (by simp [MAXBRCDLEN]),
   (c8_sticky_precondition_errors rootNode 1 1 [65] 1 0 0 7
      { ST.fresh with error := 44 }).2.2.1 (by decide)
      (by simp [MAXBRCDLEN]),
   (c8_sticky_precondition_errors rootNode 1 1 [65] 1 0 0 7
      { ST.fresh with error := 44 }).2.2.2.1,
   (c8_sticky_precondition_errors rootNode 1 1 [65] 1 0 0 7
      { ST.fresh with error := 44 }).2.2.2.2⟩

/-! ## Claim C9: allocation failure during `init_miles` exits the process -/

/-- C9 failing input: when narray allocation fails during the lazy
`init_miles` of a first search, the code terminates the process instead of
setting the error channel and returning; with allocation succeeding it
returns normally. -/
theorem c9_init_miles_exit_on_alloc_failure :
    initMilesAlloc (fun _ => false) = none ∧
    (initMilesAlloc (fun _ => true)).isSome = true := by
  constructor
  · simp only [initMilesAlloc]
    rw [if_neg]
    simp only [List.all_eq_true, not_forall]
    exact ⟨0, by simp [M, MAXBRCDLEN], by simp⟩
  · simp [initMilesAlloc]

/-! ## Concrete counterexample and failing-input evaluations

Each of the following theorems evaluates the embedded search on a small
concrete trie.  `simp` drives the evaluation through the equation lemmas of
the recursive definitions.  The simp list is the same in each proof: the
whole model. -/

/-- C2 failing input: the trie holds "AA" and "CC" (`bottom = 2`,
`maxtau = 1`, payloads attached); the query "CC" at `tau = 0` has an exact
match in the trie (edit distance 0, no ambiguous bytes), yet the search
returns no hits: filling the root's child 'A' gives `mindist = 1 > tau`,
and the `return` at trie.c line 152 abandons the remaining siblings
including the whole 'C' branch. -/
theorem c2_completeness_failing_input :
    (searchM (buildTrie [[65, 65], [67, 67]]) 1 2 [67, 67] 0 0 0 7
        ST.fresh).hits = [] ∧
    (Node.follow (buildTrie [[65, 65], [67, 67]]) (strSyms [67, 67])).dataB =
      true ∧
    editDist ([67, 67].map altranslate) (strSyms [67, 67]) = 0 := by
  refine ⟨?_, by decide, by simp [editDist, strSyms, translate, altranslate]⟩
  simp [searchM, buildTrie, insertStr, insertSyms, setData, strSyms, translate,
    rootNode, freshNode, Node.setChild, Node.child, ST.fresh, initMilesM,
    resetMiles, startLoop, rsearch, childLoop, fillChild, dash, rightArm,
    leftArm, memcpyRow, bandMinOf, mkQuery, altranslate, uc, updN, updZ, updC,
    pushHits, pushMiles, Node.follow, Node.pathW, Node.dataB, MAXBRCDLEN, M,
    EOS]

/-- C1 counterexample, two parts.  (a) With `maxtau = 1` and the single
inserted string "AAAA" (`bottom = 4`), the query "AAAAAA" (length 6 >
bottom) at `tau = 1` returns the leaf of "AAAA", whose edit distance to the
query is 2 > tau: the `depth == bottom` gate only accounts for the first
`bottom` query symbols.  (b) With `maxtau = 2` and the single inserted
string "ACC" (`bottom = 3`), the query "CAA" of length exactly `bottom` at
`tau = 2` returns the leaf of "ACC", at edit distance 3 > tau: with
`tau = maxtau` the `+maxtau` cache column is never written back by the
`memcpy` (it copies only `maxtau` bytes), so the search uses its stale
initial value. -/
theorem c1_soundness_counterexample :
    ((searchM (buildTrie [[65, 65, 65, 65]]) 1 4 [65, 65, 65, 65, 65, 65] 1 0 0
        7 ST.fresh).hits = [[0, 0, 0, 0]] ∧
      editDist ([65, 65, 65, 65, 65, 65].map altranslate) [0, 0, 0, 0] = 2) ∧
    ((searchM (buildTrie [[65, 67, 67]]) 2 3 [67, 65, 65] 2 0 0 7
        ST.fresh).hits = [[0, 1, 1]] ∧
      editDist ([67, 65, 65].map altranslate) [0, 1, 1] = 3) := by
  refine ⟨⟨?_, by simp [editDist, altranslate]⟩, ⟨?_, by simp [editDist, altranslate]⟩⟩
  · simp [searchM, buildTrie, insertStr, insertSyms, setData, strSyms, translate,
      rootNode, freshNode, Node.setChild, Node.child, ST.fresh, initMilesM,
      resetMiles, startLoop, rsearch, childLoop, fillChild, dash, rightArm,
      leftArm, memcpyRow, bandMinOf, mkQuery, altranslate, uc, updN, updZ, updC,
      pushHits, pushMiles, Node.follow, Node.pathW, Node.dataB, MAXBRCDLEN, M,
      EOS]
  · simp [searchM, buildTrie, insertStr, insertSyms, setData, strSyms, translate,
      rootNode, freshNode, Node.setChild, Node.child, ST.fresh, initMilesM,
      resetMiles, startLoop, rsearch, childLoop, fillChild, dash, rightArm,
      leftArm, memcpyRow, bandMinOf, mkQuery, altranslate, uc, updN, updZ, updC,
      pushHits, pushMiles, Node.follow, Node.pathW, Node.dataB, MAXBRCDLEN, M,
      EOS]

/-- C6 counterexample: the trie holds "AC" and "CC" (`bottom = 2`,
`maxtau = 1`); searching for the inserted string "CC" itself at `tau = 0`
appends nothing at all (the root's 'A' child is filled first, its
`mindist = 1 > 0` triggers the early `return`), instead of exactly the
leaf of "CC". -/
theorem c6_roundtrip_counterexample :
    (searchM (buildTrie [[65, 67], [67, 67]]) 1 2 [67, 67] 0 0 0 7
        ST.fresh).hits = [] ∧
    (Node.follow (buildTrie [[65, 67], [67, 67]]) (strSyms [67, 67])).dataB =
      true := by
  refine ⟨?_, by decide⟩
  simp [searchM, buildTrie, insertStr, insertSyms, setData, strSyms, translate,
    rootNode, freshNode, Node.setChild, Node.child, ST.fresh, initMilesM,
    resetMiles, startLoop, rsearch, childLoop, fillChild, dash, rightArm,
    leftArm, memcpyRow, bandMinOf, mkQuery, altranslate, uc, updN, updZ, updC,
    pushHits, pushMiles, Node.follow, Node.pathW, Node.dataB, MAXBRCDLEN, M,
    EOS]

/-- C4 counterexample: in the search of the C2 failing input the root has a
non-null child at slot 1 (the 'C' branch), and the loop visits the node
(the fill of child 0 is recorded), yet no fill of child 1 is ever recorded:
after child 0's `mindist = 1 > tau = 0` the loop returns instead of
continuing with the remaining siblings. -/
theorem c4_prune_scope_counterexample :
    (searchM (buildTrie [[65, 65], [67, 67]]) 1 2 [67, 67] 0 0 0 7
        ST.fresh).trace = [⟨[], 0, 1, 1, 1⟩] ∧
    (buildTrie [[65, 65], [67, 67]]).child 1 ≠ Node.missing := by
  refine ⟨?_, by decide⟩
  simp [searchM, buildTrie, insertStr, insertSyms, setData, strSyms, translate,
    rootNode, freshNode, Node.setChild, Node.child, ST.fresh, initMilesM,
    resetMiles, startLoop, rsearch, childLoop, fillChild, dash, rightArm,
    leftArm, memcpyRow, bandMinOf, mkQuery, altranslate, uc, updN, updZ, updC,
    pushHits, pushMiles, Node.follow, Node.pathW, Node.dataB, MAXBRCDLEN, M,
    EOS]

/-- C3 counterexample: in the search of the trie {"AAAA", "AACC"}
(`maxtau = 2`, `bottom = 4`) for the query "CAAA" at `tau = 2`, the fill of
the only child (slot 1) of node [0,0,1] at depth 4 ends with
`mindist = 3`, while the minimum over all cells computed for that child —
including the right-arm cell `COMMON[2]`, whose value is 2 — is 2: the
assignment `cmindist = min(COMMON[a], mindist)` at trie.c line 126 reads
the still-initial `mindist` instead of the accumulator, so `cmindist` ends
as `COMMON[1]` and the cells `COMMON[2..maxa]` never enter `mindist`. -/
theorem c3_mindist_counterexample :
    FillRec.mk [0, 0, 1] 1 4 3 2 ∈
      (searchM (buildTrie [[65, 65, 65, 65], [65, 65, 67, 67]]) 2 4
        [67, 65, 65, 65] 2 0 0 7 ST.fresh).trace := by
  simp [searchM, buildTrie, insertStr, insertSyms, setData, strSyms, translate,
    rootNode, freshNode, Node.setChild, Node.child, ST.fresh, initMilesM,
    resetMiles, startLoop, rsearch, childLoop, fillChild, dash, rightArm,
    leftArm, memcpyRow, bandMinOf, mkQuery, altranslate, uc, updN, updZ, updC,
    pushHits, pushMiles, Node.follow, Node.pathW, Node.dataB, MAXBRCDLEN, M,
    EOS, List.range_succ]

/-- Helper for C4: when the fill of a present child ends with
`mindist > tau`, the per-child loop stops at the state recorded right
after that fill. -/
theorem childLoop_prune_stops (P : Prm) (pc : Int → Nat) (cmSnap : Nat → Nat)
    (node : Node) (npath : List Nat) (depth maxa cmind i : Nat)
    (rest : List Nat) (st : ST) (a b c d e f : Node) (g : Bool) (p : Nat)
    (hch : node.child i = Node.mk a b c d e f g p)
    (hpr : P.tau < (fillChild P pc depth maxa cmind i
      (st.caches (npath ++ [i])) st.common).2.2) :
    childLoop P pc cmSnap node npath depth maxa cmind (i :: rest) st =
      { st with
        caches := updC st.caches (npath ++ [i])
          (fillChild P pc depth maxa cmind i (st.caches (npath ++ [i]))
            st.common).1,
        trace := st.trace ++ [⟨npath, i, depth,
          (fillChild P pc depth maxa cmind i (st.caches (npath ++ [i]))
            st.common).2.2,
          bandMinOf cmSnap (fillChild P pc depth maxa cmind i
            (st.caches (npath ++ [i])) st.common).1 maxa⟩] } := by
  rw [childLoop]
  split
  · next heq => rw [hch] at heq; simp at heq
  · next heq =>
      rw [hch] at heq; cases heq
      simp only [if_pos hpr]

/-- C4 amended: when a child's `mindist` exceeds `tau`, `recursive_search`
returns from the whole per-child loop — the child's subtree is pruned AND
the remaining siblings are abandoned: the loop result does not depend on
them at all. -/
theorem c4_prune_scope_amended (P : Prm) (pc : Int → Nat) (cmSnap : Nat → Nat)
    (node : Node) (npath : List Nat) (depth maxa cmind i : Nat)
    (rest rest' : List Nat) (st : ST) (a b c d e f : Node) (g : Bool) (p : Nat)
    (hch : node.child i = Node.mk a b c d e f g p)
    (hpr : P.tau < (fillChild P pc depth maxa cmind i
      (st.caches (npath ++ [i])) st.common).2.2) :
    childLoop P pc cmSnap node npath depth maxa cmind (i :: rest) st =
      childLoop P pc cmSnap node npath depth maxa cmind (i :: rest') st :=
  (childLoop_prune_stops P pc cmSnap node npath depth maxa cmind i rest st
      a b c d e f g p hch hpr).trans
    (childLoop_prune_stops P pc cmSnap node npath depth maxa cmind i rest' st
      a b c d e f g p hch hpr).symm

/-- Witness for the amended C4 at the C2/C4 scenario: at the root of the
trie {"AA", "CC"} with query "CC" and `tau = 0`, the fill of child 0 gives
`mindist = 1 > 0`, and the loop result is the same whether the remaining
sibling list is [1,2,3,4,5] or empty. -/
theorem c4_prune_scope_amended_witness :
    (buildTrie [[65, 65], [67, 67]]).child 0 =
      Node.mk
        (Node.mk .missing .missing .missing .missing .missing .missing true 0)
        .missing .missing .missing .missing .missing false 0 ∧
    (0 : Nat) < (fillChild ⟨mkQuery [67, 67] 0 1 7, 0, 1, 0, 2⟩
      (ST.fresh.caches []) 1 0 M 0 (ST.fresh.caches [0]) ST.fresh.common).2.2 ∧
    childLoop ⟨mkQuery [67, 67] 0 1 7, 0, 1, 0, 2⟩ (ST.fresh.caches [])
        (fun a => a) (buildTrie [[65, 65], [67, 67]]) [] 1 0 M
        [0, 1, 2, 3, 4, 5] ST.fresh =
      childLoop ⟨mkQuery [67, 67] 0 1 7, 0, 1, 0, 2⟩ (ST.fresh.caches [])
        (fun a => a) (buildTrie [[65, 65], [67, 67]]) [] 1 0 M [0] ST.fresh := by
  refine ⟨by decide, by decide, ?_⟩
  exact c4_prune_scope_amended ⟨mkQuery [67, 67] 0 1 7, 0, 1, 0, 2⟩
    (ST.fresh.caches []) (fun a => a) (buildTrie [[65, 65], [67, 67]]) [] 1 0 M
    0 [1, 2, 3, 4, 5] [] ST.fresh
    (Node.mk .missing .missing .missing .missing .missing .missing true 0)
    .missing .missing .missing .missing .missing false 0 (by decide) (by decide)

theorem leftArm_fst_out (pc : Int → Nat) (q : Nat → Nat) (depth i : Nat) :
    ∀ (a : Nat) (row : Int → Nat) (mind : Nat) (j : Int),
      (0 ≤ j ∨ j < -(Int.ofNat a)) →
      (leftArm pc q depth i a row mind).1 j = row j := by
  intro a
  induction a with
  | zero => intro row mind j _; rfl
  | succ a ih =>
      intro row mind j hj
      rw [leftArm]
      rw [ih]
      · simp only [updZ]
        rw [if_neg]
        simp only [Int.ofNat_eq_coe] at hj ⊢
        rcases hj with hj | hj <;> omega
      · rcases hj with hj | hj
        · exact Or.inl hj
        · right
          simp only [Int.ofNat_eq_coe] at hj ⊢
          omega

theorem leftArm_snd_foldr (pc : Int → Nat) (q : Nat → Nat) (depth i : Nat) :
    ∀ (a : Nat) (row : Int → Nat) (mind : Nat),
      (leftArm pc q depth i a row mind).2 =
        List.foldr min mind ((List.range a).map
          (fun k => (leftArm pc q depth i a row mind).1 (-(Int.ofNat (k + 1))))) := by
  intro a
  induction a with
  | zero => intro row mind; simp [leftArm]
  | succ a ih =>
      intro row mind
      rw [leftArm]
      rw [ih]
      rw [List.range_succ, List.map_append, List.foldr_append]
      simp only [List.map_cons, List.map_nil, List.foldr_cons, List.foldr_nil]
      congr 1
      rw [leftArm_fst_out pc q depth i a _ _ (-(Int.ofNat (a + 1)))
        (Or.inr (by simp only [Int.ofNat_eq_coe]; omega))]
      simp [updZ]

/-- C3 amended: after filling one child, the variable `mindist` equals the
minimum over the incoming `cmindist`, the center cell and the left-arm
cells of the child's filled row — and not over the full angle: the
right-arm cells `COMMON[2..maxa]` are never folded in, because the loop at
trie.c lines 121-127 computes `cmindist = min(COMMON[a], mindist)` against
the still-untouched `mindist = M`, leaving `cmindist = COMMON[1]` only. -/
theorem c3_mindist_amended (P : Prm) (pc : Int → Nat)
    (depth maxa cmind i : Nat) (row₀ : Int → Nat) (cmNow : Nat → Nat) :
    (fillChild P pc depth maxa cmind i row₀ cmNow).2.2 =
      narrowBandMin cmind
        (fillChild P pc depth maxa cmind i row₀ cmNow).1 maxa := by
  simp only [fillChild, narrowBandMin, List.foldr_cons]
  have h0 : updZ (leftArm pc P.q depth i maxa (memcpyRow row₀ cmNow P.maxtau)
      cmind).1 0
      (min (uc (pc 0 + (if i ≠ P.q depth then 1 else 0)))
        (uc (min ((leftArm pc P.q depth i maxa (memcpyRow row₀ cmNow P.maxtau)
          cmind).1 (-1))
          ((leftArm pc P.q depth i maxa (memcpyRow row₀ cmNow P.maxtau)
            cmind).1 1) + 1))) 0 =
      min (uc (pc 0 + (if i ≠ P.q depth then 1 else 0)))
        (uc (min ((leftArm pc P.q depth i maxa (memcpyRow row₀ cmNow P.maxtau)
          cmind).1 (-1))
          ((leftArm pc P.q depth i maxa (memcpyRow row₀ cmNow P.maxtau)
            cmind).1 1) + 1)) := by
    simp [updZ]
  rw [h0]
  congr 1
  rw [leftArm_snd_foldr]
  congr 1

/-- C5 failing input: the trie holds "CA" and "CC" (`bottom = 2`,
`maxtau = 1`), the query sequence is "CA" then "CC" at `tau = 0`, and their
common prefix has length 1.  Run A executes both queries with
`start = trail = 0` on fresh hit arrays and finds the exact match "CC" (by
dash from depth 1).  Run B executes "CA" with `(start, trail) = (0, 1)` and
then "CC" with `(start, trail) = (1, 1)` — a trail within the claim's
allowed range — and returns NO hits for "CC": the resumed depth-2 sibling
loop fills child 'A' first, gets `mindist = 1 > tau` and returns before
reaching the 'C' child. -/
theorem c5_mile_equivalence_failing_input :
    (searchM (buildTrie [[67, 65], [67, 67]]) 1 2 [67, 67] 0 0 0 7
      { searchM (buildTrie [[67, 65], [67, 67]]) 1 2 [67, 65] 0 0 0 7 ST.fresh
          with hits := [] }).hits = [[1, 1]] ∧
    (searchM (buildTrie [[67, 65], [67, 67]]) 1 2 [67, 67] 0 1 1 7
      { searchM (buildTrie [[67, 65], [67, 67]]) 1 2 [67, 65] 0 0 1 7 ST.fresh
          with hits := [] }).hits = [] := by
  constructor
  · simp [searchM, buildTrie, insertStr, insertSyms, setData, strSyms, translate,
      rootNode, freshNode, Node.setChild, Node.child, ST.fresh, initMilesM,
      resetMiles, startLoop, rsearch, childLoop, fillChild, dash, rightArm,
      leftArm, memcpyRow, bandMinOf, mkQuery, altranslate, uc, updN, updZ, updC,
      pushHits, pushMiles, Node.follow, Node.pathW, Node.dataB, MAXBRCDLEN, M,
      EOS]
  · simp [searchM, buildTrie, insertStr, insertSyms, setData, strSyms, translate,
      rootNode, freshNode, Node.setChild, Node.child, ST.fresh, initMilesM,
      resetMiles, startLoop, rsearch, childLoop, fillChild, dash, rightArm,
      leftArm, memcpyRow, bandMinOf, mkQuery, altranslate, uc, updN, updZ, updC,
      pushHits, pushMiles, Node.follow, Node.pathW, Node.dataB, MAXBRCDLEN, M,
      EOS]

/-- C10 counterexample: the trie holds "AA" and "AAA" (`bottom = 2`,
`maxtau = 1`, payloads on both leaves); the query "A" has length 1 <
bottom, `tau = 1`, `start = trail = 0`.  The result depends on the
indeterminate contents `u` of the `translated` entries beyond index
`len+1 = 2`: `dash` is reached at depth 2 and reads `translated[3]`, which
was never initialized.  With `u = 6` (the stack garbage happening to equal
`EOS`) the leaf "AA" is pushed; with `u = 0` nothing is.  Hence an
uninitialized buffer entry is read. -/
theorem c10_uninitialized_read_counterexample :
    (searchM (buildTrie [[65, 65], [65, 65, 65]]) 1 2 [65] 1 0 0 6
        ST.fresh).hits = [[0, 0]] ∧
    (searchM (buildTrie [[65, 65], [65, 65, 65]]) 1 2 [65] 1 0 0 0
        ST.fresh).hits = [] := by
  constructor
  · simp [searchM, buildTrie, insertStr, insertSyms, setData, strSyms, translate,
      rootNode, freshNode, Node.setChild, Node.child, ST.fresh, initMilesM,
      resetMiles, startLoop, rsearch, childLoop, fillChild, dash, rightArm,
      leftArm, memcpyRow, bandMinOf, mkQuery, altranslate, uc, updN, updZ, updC,
      pushHits, pushMiles, Node.follow, Node.pathW, Node.dataB, MAXBRCDLEN, M,
      EOS]
  · simp [searchM, buildTrie, insertStr, insertSyms, setData, strSyms, translate,
      rootNode, freshNode, Node.setChild, Node.child, ST.fresh, initMilesM,
      resetMiles, startLoop, rsearch, childLoop, fillChild, dash, rightArm,
      leftArm, memcpyRow, bandMinOf, mkQuery, altranslate, uc, updN, updZ, updC,
      pushHits, pushMiles, Node.follow, Node.pathW, Node.dataB, MAXBRCDLEN, M,
      EOS]

end Starcode
